import Mathlib

/-!
Verification of the padel booking core: a shallow embedding, in Lean 4, of
`rating.service.js` and the reservation service (creation/cancellation state
machine, credit ledger helpers, capacity arbiter, score protocol, background
finalizer).  Machine numbers are modelled by exact rationals `ℚ` (decimal
literals in the source are exact decimals), timestamps by integer
milliseconds `ℤ`, nullable columns by `Option`, and the database by explicit
record states threaded through each operation.  Database queries
(`findOne`, `findAll`, `count`) become recursive walks over the record
lists, with decidable propositional conditions.
-/

namespace Padel

set_option maxRecDepth 4000

/- ════════════════════════════════════════════════════════════════════════
   List-query helpers (the embedding of findOne / count / filter)
   ════════════════════════════════════════════════════════════════════════ -/

/-- Note: `findOne`: first element satisfying `p`, in list order. -/
def findFirst {α : Type} (p : α → Prop) [DecidablePred p] : List α → Option α
  | [] => none
  | x :: xs => if p x then some x else findFirst p xs

/-- Note: `count`: number of elements satisfying `p`. -/
def countMatching {α : Type} (p : α → Prop) [DecidablePred p] : List α → ℕ
  | [] => 0
  | x :: xs => (if p x then 1 else 0) + countMatching p xs

/-- Note: `findAll`: all elements satisfying `p`, in list order. -/
def filterMatching {α : Type} (p : α → Prop) [DecidablePred p] : List α → List α
  | [] => []
  | x :: xs => if p x then x :: filterMatching p xs else filterMatching p xs

/-- Row-wise `UPDATE ... WHERE p`: apply `f` to every element satisfying `p`. -/
def mapWhere {α : Type} (p : α → Prop) [DecidablePred p] (f : α → α) : List α → List α
  | [] => []
  | x :: xs => (if p x then f x else x) :: mapWhere p f xs

/- ════════════════════════════════════════════════════════════════════════
   Rating engine — `rating.service.js`
   ════════════════════════════════════════════════════════════════════════ -/

/-- One row of `RATING_DIFF_TABLE`: inclusive interval `[lo, hi]` mapped to
the expected-win weight `W`. -/
structure WRow where
  lo : ℚ
  hi : ℚ
  W : ℚ

/-- Note: `RATING_DIFF_TABLE` from `rating.service.js`, in source order. -/
def RATING_DIFF_TABLE : List WRow :=
  [⟨0.96, 3.5, 0.02⟩, ⟨0.86, 0.95, 0.03⟩, ⟨0.76, 0.85, 0.05⟩,
   ⟨0.66, 0.75, 0.08⟩, ⟨0.56, 0.65, 0.11⟩, ⟨0.46, 0.55, 0.15⟩,
   ⟨0.36, 0.45, 0.2⟩, ⟨0.26, 0.35, 0.26⟩, ⟨0.16, 0.25, 0.33⟩,
   ⟨0.05, 0.15, 0.41⟩, ⟨-0.06, 0.05, 0.5⟩, ⟨-0.16, -0.06, 0.6⟩,
   ⟨-0.25, -0.16, 0.7⟩, ⟨-0.36, -0.26, 0.85⟩, ⟨-0.46, -0.36, 1⟩,
   ⟨-0.56, -0.46, 1.2⟩, ⟨-0.66, -0.56, 1.4⟩, ⟨-0.76, -0.66, 1.7⟩,
   ⟨-0.86, -0.76, 2⟩, ⟨-0.96, -0.86, 2.4⟩, ⟨-3.5, -0.96, 2.8⟩]

/-- Note: `lookupW(X)`: walk the table in order, first row whose inclusive interval
contains `X` wins; fallbacks `X > 3.5 → 0.02`, `X < -3.5 → 2.8`, else `0.5`. -/
def lookupW (X : ℚ) : ℚ :=
  match findFirst (fun row => row.lo ≤ X ∧ X ≤ row.hi) RATING_DIFF_TABLE with
  | some row => row.W
  | none =>
    if X > 3.5 then 0.02
    else if X < -3.5 then 2.8
    else 0.5

/-- Note: `POINTS_ADJUSTMENT` table from `rating.service.js`: points `0..19` to
percentage. -/
def POINTS_ADJUSTMENT : List (ℕ × ℚ) :=
  [(0, 100), (1, 97.37), (2, 94.74), (3, 92.11), (4, 89.47),
   (5, 86.84), (6, 84.21), (7, 81.58), (8, 78.95), (9, 76.32),
   (10, 73.68), (11, 71.05), (12, 68.42), (13, 65.79), (14, 63.16),
   (15, 60.53), (16, 57.89), (17, 55.26), (18, 52.63), (19, 50)]

/-- Note: `getAdjustmentPercentage(pointsScored)`: exact table hit for `0..19`,
linear decay `max 0 (50 - (p - 19) * 2.63)` for `p > 19`, default `100`. -/
def getAdjustmentPercentage (pointsScored : ℕ) : ℚ :=
  match findFirst (fun e => e.1 = pointsScored) POINTS_ADJUSTMENT with
  | some e => e.2
  | none =>
    if pointsScored > 19 then
      max 0 (50 - ((pointsScored : ℚ) - 19) * 2.63)
    else 100

/-- Input record destructured by `calculateNewRating` (the code reads
`pointsConceded`, an `isWinner` flag and an optional `resultFactor`;
`resultFactor = none` models a non-number value, replaced by `1`). -/
structure MatchData where
  playerRating : ℚ
  teammateRating : ℚ
  adversary1Rating : ℚ
  adversary2Rating : ℚ
  pointsConceded : ℕ
  teammateReliability : ℚ
  adversary1Reliability : ℚ
  adversary2Reliability : ℚ
  isWinner : Bool
  resultFactor : Option ℚ

/-- Note: `calculateNewRating` from `rating.service.js`: `X` is the signed team
rating difference halved, `W = lookupW X`, `Y = W * pct/100`, `Z = Y`
(the code's "corrected step 3"), `Ro = Z * avgReliability * factor`, and
`Rn = playerRating ± Ro` by `isWinner`, clamped into `[0.5, 7]` by two
sequential conditionals. -/
def calculateNewRating (m : MatchData) : ℚ :=
  let X := ((m.playerRating + m.teammateRating) - (m.adversary1Rating + m.adversary2Rating)) / 2
  let W := lookupW X
  let adjustmentPercentage := getAdjustmentPercentage m.pointsConceded
  let Y := W * (adjustmentPercentage / 100)
  let Z := Y
  let factor := m.resultFactor.getD 1
  let avgReliability := (m.teammateReliability + m.adversary1Reliability + m.adversary2Reliability) / 3
  let Ro := Z * avgReliability * factor
  let Rn := if m.isWinner then m.playerRating + Ro else m.playerRating - Ro
  let Rn1 := if Rn < 0.5 then 0.5 else Rn
  let Rn2 := if Rn1 > 7.0 then 7.0 else Rn1
  Rn2

/-- Clamp of `x` into `[lo, hi]`, the spec's `clamp` (for `lo ≤ hi`). -/
def clamp (lo hi x : ℚ) : ℚ := min hi (max lo x)

/-- Spec-form closed formula for the rating engine as the code actually
computes it: the retained share `W * pct/100` (not `W - Y`), scaled by the
average reliability and the result factor, added for a winner and subtracted
for a loser, clamped into `[0.5, 7]`. -/
def ratingFormula (m : MatchData) : ℚ :=
  clamp 0.5 7.0
    (m.playerRating +
      (if m.isWinner then 1 else -1) *
        (lookupW (((m.playerRating + m.teammateRating) -
            (m.adversary1Rating + m.adversary2Rating)) / 2) *
          (getAdjustmentPercentage m.pointsConceded / 100) *
          ((m.teammateReliability + m.adversary1Reliability + m.adversary2Reliability) / 3) *
          m.resultFactor.getD 1))

/-- Two sequential saturation conditionals (low first, as in
`calculateNewRating`) equal a `min`/`max` clamp. -/
theorem seqClampLowFirst {α : Type} [LinearOrderedField α] (lo hi x : α) (h : lo ≤ hi) :
    (if (if x < lo then lo else x) > hi then hi else (if x < lo then lo else x)) =
      min hi (max lo x) := by
  rcases lt_or_le x lo with h1 | h1 <;> rcases le_or_lt x hi with h2 | h2 <;>
    simp [min_def, max_def] <;> split_ifs <;> linarith

/-- Two sequential saturation conditionals (high first, as in
`calculateNewReliability`) equal a `max`/`min` clamp. -/
theorem seqClampHighFirst {α : Type} [LinearOrderedField α] (lo hi x : α) (h : lo ≤ hi) :
    (if (if x > hi then hi else x) < lo then lo else (if x > hi then hi else x)) =
      max lo (min hi x) := by
  rcases lt_or_le x lo with h1 | h1 <;> rcases le_or_lt x hi with h2 | h2 <;>
    simp [min_def, max_def] <;> split_ifs <;> linarith

/-- A branch on the winner flag is an additive correction with sign `±1`. -/
theorem winnerSignSplit (w : Bool) (a e : ℚ) :
    (if w then a + e else a - e) = a + (if w then 1 else -1) * e := by
  cases w
  all_goals simp only [Bool.false_eq_true, if_false, if_true, ite_true, ite_false]
  all_goals ring

/-- C1 counterexample: with all four ratings `4.0`, all reliabilities `1.0`
and ten points, `calculateNewRating` returns `4.3684` for a winner and
`3.6316` for a loser — in neither case the claimed `4.1316`: the code sets
`Z = Y` (the retained share), not `Z = W - Y`. -/
theorem calculateNewRating_balanced_not_claimed :
    calculateNewRating ⟨4, 4, 4, 4, 10, 1, 1, 1, true, none⟩ = 4.3684 ∧
    calculateNewRating ⟨4, 4, 4, 4, 10, 1, 1, 1, false, none⟩ = 3.6316 ∧
    calculateNewRating ⟨4, 4, 4, 4, 10, 1, 1, 1, true, none⟩ ≠ 4.1316 ∧
    calculateNewRating ⟨4, 4, 4, 4, 10, 1, 1, 1, false, none⟩ ≠ 4.1316 := by
  refine ⟨?_, ?_, ?_, ?_⟩ <;>
    norm_num [calculateNewRating, lookupW, findFirst, RATING_DIFF_TABLE,
      getAdjustmentPercentage, POINTS_ADJUSTMENT]

/-- C1 (amended): `calculateNewRating` returns
`clamp(Rp ± Ro, 0.5, 7.0)` with `Ro = (W * pct(P)/100) * avgRel * factor`
(the code keeps `Z = Y`, it does not compute `W - Y`), added for a winner
and subtracted for a loser; on the balanced input with ten points and a
winning team the result is `4.3684`. -/
theorem calculateNewRating_eq_ratingFormula (m : MatchData) :
    calculateNewRating m = ratingFormula m ∧
    calculateNewRating ⟨4, 4, 4, 4, 10, 1, 1, 1, true, none⟩ = 4.3684 := by
  constructor
  · simp only [calculateNewRating, ratingFormula, clamp, winnerSignSplit]
    exact seqClampLowFirst 0.5 7.0 _ (by norm_num)
  · norm_num [calculateNewRating, lookupW, findFirst, RATING_DIFF_TABLE,
      getAdjustmentPercentage, POINTS_ADJUSTMENT]

/- ════════════════════════════════════════════════════════════════════════
   Reliability engine — `calculateNewReliability` in `rating.service.js`
   (real-valued: `Math.pow` and `Math.sqrt` are transcendental)
   ════════════════════════════════════════════════════════════════════════ -/

/-- Input record destructured by `calculateNewReliability`. -/
structure ReliabilityData where
  playerReliability : ℝ
  teammateReliability : ℝ
  adversary1Reliability : ℝ
  adversary2Reliability : ℝ
  winnerTeamRatingSum : ℝ
  loserTeamRatingSum : ℝ

/-- Note: `calculateNewReliability` from `rating.service.js`: `beta = 0.1`,
`RE = 1 / (1 + 10 ^ ((avgLoser - avgWinner) / 20))`,
`H = max(0.01, (Fc + Fa1 + Fa2) / 3)`, change `beta * RE * (1 / sqrt H)`,
then two sequential saturation conditionals into `[0, 1]`. -/
noncomputable def calculateNewReliability (m : ReliabilityData) : ℝ :=
  let beta : ℝ := 0.1
  let avgWinnerRating := m.winnerTeamRatingSum / 2
  let avgLoserRating := m.loserTeamRatingSum / 2
  let exponent := (avgLoserRating - avgWinnerRating) / 20
  let RE := 1 / (1 + (10 : ℝ) ^ exponent)
  let reliabilitySumOthers :=
    m.teammateReliability + m.adversary1Reliability + m.adversary2Reliability
  let H := max 0.01 (reliabilitySumOthers / 3)
  let term3 := 1 / Real.sqrt H
  let reliabilityChange := beta * RE * term3
  let newReliability := m.playerReliability + reliabilityChange
  let newReliability1 := if newReliability > 1 then 1 else newReliability
  let newReliability2 := if newReliability1 < 0 then 0 else newReliability1
  newReliability2

/-- Clamp of `x` into `[lo, hi]` over the reals, the spec's `clamp`. -/
def clampR (lo hi x : ℝ) : ℝ := max lo (min hi x)

/-- Spec-form closed formula for the reliability engine, written exactly as
the claim states it: `clamp(F + 0.1 * RE * (1/√H), 0, 1)` with
`RE = 1 / (1 + 10 ^ ((Sl/2 - Sw/2) / 20))` and
`H = max(0.01, (Ft + Fa1 + Fa2) / 3)`. -/
noncomputable def reliabilityFormula (m : ReliabilityData) : ℝ :=
  clampR 0 1
    (m.playerReliability +
      0.1 * (1 / (1 + (10 : ℝ) ^
          ((m.loserTeamRatingSum / 2 - m.winnerTeamRatingSum / 2) / 20))) *
        (1 / Real.sqrt (max 0.01
          ((m.teammateReliability + m.adversary1Reliability +
              m.adversary2Reliability) / 3))))

/-- C8: `calculateNewReliability` returns
`clamp(Fcurrent + 0.1 * RE * (1/√H), 0, 1)` with
`RE = 1 / (1 + 10^((Sl/2 - Sw/2)/20))` and `H = max(0.01, (Ft+Fa1+Fa2)/3)`. -/
theorem calculateNewReliability_eq_reliabilityFormula (m : ReliabilityData) :
    calculateNewReliability m = reliabilityFormula m := by
  simp only [calculateNewReliability, reliabilityFormula, clampR]
  rw [← seqClampHighFirst (0 : ℝ) 1 _ (by norm_num)]

/- ════════════════════════════════════════════════════════════════════════
   Query-helper lemmas
   ════════════════════════════════════════════════════════════════════════ -/

theorem findFirst_eq_none_iff {α : Type} (p : α → Prop) [DecidablePred p]
    (l : List α) : findFirst p l = none ↔ ∀ x ∈ l, ¬ p x := by
  induction l with
  | nil => simp [findFirst]
  | cons x xs ih =>
    by_cases hx : p x <;> simp [findFirst, hx, ih]

theorem findFirst_eq_some {α : Type} {p : α → Prop} [DecidablePred p]
    {l : List α} {x : α} (h : findFirst p l = some x) : x ∈ l ∧ p x := by
  induction l with
  | nil => simp [findFirst] at h
  | cons y ys ih =>
    by_cases hy : p y
    · simp only [findFirst, if_pos hy, Option.some.injEq] at h
      subst h; exact ⟨List.mem_cons_self _ _, hy⟩
    · simp only [findFirst, if_neg hy] at h
      exact ⟨List.mem_cons_of_mem _ (ih h).1, (ih h).2⟩

theorem findFirst_mapWhere {α : Type} (p : α → Prop) [DecidablePred p]
    (f : α → α) (l : List α) (hf : ∀ x, p (f x) ↔ p x) :
    findFirst p (mapWhere p f l) = (findFirst p l).map f := by
  induction l with
  | nil => rfl
  | cons x xs ih =>
    by_cases hx : p x
    · simp [mapWhere, findFirst, hx, (hf x).mpr hx]
    · have hfx : ¬ p (f x) := fun h => hx ((hf x).mp h)
      simp [mapWhere, findFirst, hx, ih]

theorem findFirst_isSome {α : Type} {p : α → Prop} [DecidablePred p]
    {l : List α} {x : α} (hx : x ∈ l) (hpx : p x) :
    ∃ y, findFirst p l = some y := by
  induction l with
  | nil => simp at hx
  | cons y ys ih =>
    by_cases hy : p y
    · exact ⟨y, by simp [findFirst, hy]⟩
    · rcases List.mem_cons.1 hx with rfl | hmem
      · exact absurd hpx hy
      · rcases ih hmem with ⟨z, hz⟩
        exact ⟨z, by simp [findFirst, hy, hz]⟩

/- ════════════════════════════════════════════════════════════════════════
   Data model — records mirroring the Sequelize rows used by the service
   ════════════════════════════════════════════════════════════════════════ -/

/-- Idempotency keys of credit transactions (the `type` column).  In the
source these are structured strings; each constructor models one pattern:
`debit:reservation:R{rid}:U{uid}:creator`; `debit:join:R{rid}:U{uid}...`
(`tag` stands for the variable suffix matched by the SQL `LIKE` wildcard);
`refund:R{rid}:U{uid}:P{pid}`; `refund:cancel:R{rid}`. -/
inductive TxnKey : Type
  | debitCreator (rid uid : ℤ)
  | debitJoin (rid uid tag : ℤ)
  | refundPart (rid uid : ℤ) (pid : Option ℤ)
  | refundCancel (rid : ℤ)
  | generic (tag : ℤ)
deriving DecidableEq

/-- One `credit_transaction` row. -/
structure CreditTxn where
  idUtilisateur : ℤ
  nombre : ℚ
  type : TxnKey
deriving DecidableEq

/-- One `utilisateur` row (the fields the core mutates). -/
structure User where
  id : ℤ
  creditBalance : ℚ
deriving DecidableEq

/-- One `participant` row. -/
structure Participant where
  idReservation : ℤ
  idUtilisateur : ℤ
  estCreateur : Bool
  statepaiement : ℤ
  team : Option ℤ
deriving DecidableEq

/-- One `reservation` row.  `date` doubles as the match start timestamp
(integer milliseconds), as in the source's 24-hour check. -/
structure Reservation where
  id : ℤ
  idUtilisateur : ℤ
  idPlageHoraire : Option ℤ
  date : Option ℤ
  typer : ℤ
  etat : ℤ
  isCancel : ℤ
  prixTotal : ℚ
  updatedAt : ℤ
  scoreStatus : Option ℤ
  set1A : Option ℤ
  set1B : Option ℤ
  set2A : Option ℤ
  set2B : Option ℤ
  set3A : Option ℤ
  set3B : Option ℤ
  supertiebreak : Option ℤ
  teamwin : Option ℤ
  lastScoreSubmitter : Option ℤ

/-- One `plage_horaire` (court slot) row.  `price = none` models a missing
or non-finite price. -/
structure Plage where
  id : ℤ
  terrainId : ℤ
  startTime : ℤ
  endTime : ℤ
  price : Option ℚ
  capacity : Option ℤ
  disponible : Bool

/-- The database state threaded through every operation. -/
structure DB where
  users : List User
  plages : List Plage
  reservations : List Reservation
  participants : List Participant
  txns : List CreditTxn

/- ════════════════════════════════════════════════════════════════════════
   Credit ledger — `refundUserIdempotent`, `logCreditTransaction`,
   and the debit lookup used by the cancellation paths
   ════════════════════════════════════════════════════════════════════════ -/

/-- The `Op.or` filter of the debit lookup: a creator-debit key for exactly
`(rid, uid)` or any join-debit key with the `debit:join:R{rid}:U{uid}`
string prefix. -/
def matchesDebitPattern (rid uid : ℤ) : TxnKey → Bool
  | .debitCreator r u => decide (r = rid ∧ u = uid)
  | .debitJoin r u _ => decide (r = rid ∧ u = uid)
  | _ => false

/-- The canceller paths' `findOne` over `credit_transaction`: first row of
this user whose key matches a debit pattern for the reservation and whose
amount is negative. -/
def findDebitFor (txns : List CreditTxn) (rid uid : ℤ) : Option CreditTxn :=
  findFirst (fun txn => txn.idUtilisateur = uid ∧
    matchesDebitPattern rid uid txn.type = true ∧ txn.nombre < 0) txns

/-- Note: `findByPk` on `utilisateur`. -/
def findUser (users : List User) (uid : ℤ) : Option User :=
  findFirst (fun u => u.id = uid) users

/-- Note: the balance update `user.update` with the new balance. -/
def setBalance (users : List User) (uid : ℤ) (newBal : ℚ) : List User :=
  mapWhere (fun u => u.id = uid) (fun u => { u with creditBalance := newBal }) users

/-- Note: `logCreditTransaction`: append one ledger row. -/
def logCreditTransaction (db : DB) (uid : ℤ) (amount : ℚ) (key : TxnKey) : DB :=
  { db with txns := db.txns ++ [⟨uid, amount, key⟩] }

/-- Note: `refundUserIdempotent(userId, amount, reservationId, participantId, t)`:
skip non-positive amounts; return `false` if a transaction with this user
and audit key already exists; otherwise credit the balance and append the
transaction. -/
def refundUserIdempotent (db : DB) (userId : ℤ) (amount : ℚ) (reservationId : ℤ)
    (participantId : Option ℤ) : Bool × DB :=
  if amount ≤ 0 then (false, db)
  else
    match findFirst (fun txn => txn.idUtilisateur = userId ∧
        txn.type = TxnKey.refundPart reservationId userId participantId) db.txns with
    | some _ => (false, db)
    | none =>
      match findUser db.users userId with
      | none => (false, db)
      | some user =>
        (true, logCreditTransaction
          { db with users := setBalance db.users userId (user.creditBalance + amount) }
          userId amount (TxnKey.refundPart reservationId userId participantId))

/-- C3: if a credit transaction with the same `(user, type_key)` pair
already exists, `refundUserIdempotent` returns `false` and leaves the state
(hence the balance) unchanged; and running it twice with the same user,
amount and key leaves the state of a single run. -/
theorem refundUserIdempotent_noop_and_idem (db : DB) (u : ℤ) (a : ℚ) (rid : ℤ)
    (pid : Option ℤ) :
    ((∃ txn ∈ db.txns, txn.idUtilisateur = u ∧
        txn.type = TxnKey.refundPart rid u pid) →
      refundUserIdempotent db u a rid pid = (false, db)) ∧
    (refundUserIdempotent (refundUserIdempotent db u a rid pid).2 u a rid pid).2 =
      (refundUserIdempotent db u a rid pid).2 := by
  constructor
  · rintro ⟨txn, hmem, hu, hk⟩
    unfold refundUserIdempotent
    by_cases ha : a ≤ 0
    · simp [ha]
    · rcases findFirst_isSome (p := fun txn => txn.idUtilisateur = u ∧
          txn.type = TxnKey.refundPart rid u pid) hmem ⟨hu, hk⟩ with ⟨y, hy⟩
      simp [ha, hy]
  · by_cases ha : a ≤ 0
    · simp [refundUserIdempotent, ha]
    · rcases hf : findFirst (fun txn => txn.idUtilisateur = u ∧
          txn.type = TxnKey.refundPart rid u pid) db.txns with _ | y
      · rcases hu : findUser db.users u with _ | user
        · simp [refundUserIdempotent, ha, hf, hu]
        · have hstep : (refundUserIdempotent db u a rid pid).2 =
              logCreditTransaction
                { db with users := setBalance db.users u (user.creditBalance + a) }
                u a (TxnKey.refundPart rid u pid) := by
            simp [refundUserIdempotent, ha, hf, hu]
          rw [hstep]
          unfold refundUserIdempotent
          rcases findFirst_isSome (l := (logCreditTransaction
              { db with users := setBalance db.users u (user.creditBalance + a) }
              u a (TxnKey.refundPart rid u pid)).txns)
              (p := fun txn => txn.idUtilisateur = u ∧
                txn.type = TxnKey.refundPart rid u pid)
              (x := ⟨u, a, TxnKey.refundPart rid u pid⟩)
              (by simp [logCreditTransaction]) ⟨rfl, rfl⟩ with ⟨y, hy⟩
          simp [ha, hy]
      · simp [refundUserIdempotent, ha, hf]

/-- Concrete state for the C3 witness: user 5 with balance 10 and an
already-present refund transaction for key `refund:R1:U5:P(null)`. -/
def dbRefunded : DB :=
  ⟨[⟨5, 10⟩], [], [], [], [⟨5, 3, TxnKey.refundPart 1 5 none⟩]⟩

/-- C3 witness: on `dbRefunded` the duplicate check fires and the state is
returned unchanged. -/
theorem refundUserIdempotent_noop_witness :
    refundUserIdempotent dbRefunded 5 3 1 none = (false, dbRefunded) :=
  (refundUserIdempotent_noop_and_idem dbRefunded 5 3 1 none).1
    ⟨⟨5, 3, TxnKey.refundPart 1 5 none⟩, by simp [dbRefunded], rfl, rfl⟩

/- ════════════════════════════════════════════════════════════════════════
   Capacity arbiter — `hasAvailableCapacity`
   ════════════════════════════════════════════════════════════════════════ -/

theorem countMatching_append {α : Type} (p : α → Prop) [DecidablePred p]
    (l₁ l₂ : List α) :
    countMatching p (l₁ ++ l₂) = countMatching p l₁ + countMatching p l₂ := by
  induction l₁ with
  | nil => simp [countMatching]
  | cons x xs ih => simp [countMatching, ih]; ring

theorem countMatching_eq_zero {α : Type} {p : α → Prop} [DecidablePred p]
    {l : List α} (h : ∀ x ∈ l, ¬ p x) : countMatching p l = 0 := by
  induction l with
  | nil => rfl
  | cons x xs ih =>
    have hx := h x (List.mem_cons_self _ _)
    simp [countMatching, hx, ih fun y hy => h y (List.mem_cons_of_mem _ hy)]

/-- Note: `hasAvailableCapacity(plageHoraireId, date, t)`: look up the slot,
default its capacity to 1, count the VALID (`etat=1`, `isCancel=0`)
reservations on `(slot, date)`, return `activeReservations < capacity`. -/
def hasAvailableCapacity (db : DB) (plageHoraireId : ℤ) (date : Option ℤ) : Bool :=
  match findFirst (fun p => p.id = plageHoraireId) db.plages with
  | none => false
  | some plage =>
    let capacity := plage.capacity.getD 1
    let activeReservations := countMatching (fun r =>
      r.idPlageHoraire = some plageHoraireId ∧ r.date = date ∧
      r.isCancel = 0 ∧ r.etat = 1) db.reservations
    decide ((activeReservations : ℤ) < capacity)

/-- C7: when the slot row exists, `hasAvailableCapacity` is true exactly when
the number of `etat = 1`, `is_cancel = 0` reservations on `(slot, date)` is
strictly below the slot's capacity (default 1); and appending any number of
PENDING (`etat = 0`) reservations never changes the answer. -/
theorem hasAvailableCapacity_iff_valid_below_capacity (db : DB) (pid : ℤ)
    (d : Option ℤ) (plage : Plage)
    (hp : findFirst (fun p => p.id = pid) db.plages = some plage) :
    (hasAvailableCapacity db pid d = true ↔
      ((countMatching (fun r => r.idPlageHoraire = some pid ∧ r.date = d ∧
          r.isCancel = 0 ∧ r.etat = 1) db.reservations : ℤ) < plage.capacity.getD 1)) ∧
    (∀ pending : List Reservation, (∀ r ∈ pending, r.etat = 0) →
      hasAvailableCapacity { db with reservations := db.reservations ++ pending } pid d =
        hasAvailableCapacity db pid d) := by
  constructor
  · simp [hasAvailableCapacity, hp]
  · intro pending hpend
    have hzero : countMatching (fun r => r.idPlageHoraire = some pid ∧ r.date = d ∧
        r.isCancel = 0 ∧ r.etat = 1) pending = 0 :=
      countMatching_eq_zero fun r hr hcond => by
        have h0 := hpend r hr
        have h1 := hcond.2.2.2
        omega
    simp [hasAvailableCapacity, hp, countMatching_append, hzero]

/-- Concrete state for the C7 witness: one slot (id 1, unset capacity) with
a single PENDING reservation on it. -/
def dbOneSlot : DB :=
  ⟨[], [⟨1, 7, 100, 200, none, none, true⟩],
   [⟨10, 5, some 1, some 0, 1, 0, 0, 1000, 0, none, none, none, none, none,
     none, none, none, none, none⟩], [], []⟩

/-- C7 witness: on `dbOneSlot` the PENDING reservation does not consume the
default capacity of 1, so the slot is available. -/
theorem hasAvailableCapacity_witness :
    hasAvailableCapacity dbOneSlot 1 (some 0) = true :=
  (hasAvailableCapacity_iff_valid_below_capacity dbOneSlot 1 (some 0)
      ⟨1, 7, 100, 200, none, none, true⟩
      (by simp [dbOneSlot, findFirst])).1.2
    (by norm_num [dbOneSlot, countMatching])

/- ════════════════════════════════════════════════════════════════════════
   Cancellation — `cancel(id, cancellingUserId)`
   (notification-outbox writes and timestamp columns are not modelled)
   ════════════════════════════════════════════════════════════════════════ -/

/-- The 24-hour policy test of `cancel`: with a match start time, reject
when `now` is before the start and `Math.floor((start - now) / 3600000)` is
at most 24. -/
def tooLateToCancel (date : Option ℤ) (now : ℤ) : Bool :=
  match date with
  | some matchStartTime =>
    decide (now < matchStartTime) && decide ((matchStartTime - now) / 3600000 ≤ 24)
  | none => false

/-- The `refundUser` helper closed over `cancel`'s transaction: skip
non-positive amounts, else credit the balance and log a
`refund:cancel:R{id}` transaction (not idempotent by itself). -/
def refundUserCancel (db : DB) (userId : ℤ) (amount : ℚ) (rid : ℤ) : DB :=
  if amount ≤ 0 then db
  else
    match findUser db.users userId with
    | none => db
    | some user =>
      logCreditTransaction
        { db with users := setBalance db.users userId (user.creditBalance + amount) }
        userId amount (TxnKey.refundCancel rid)

/-- Creator-cancel refund loop: for every PAID participant whose debit is
found in the ledger, refund the absolute debited amount. -/
def creatorRefundStep (rid : ℤ) (acc : DB) (p : Participant) : DB :=
  if p.statepaiement = 1 then
    match findDebitFor acc.txns rid p.idUtilisateur with
    | some userDebit => refundUserCancel acc p.idUtilisateur (abs userDebit.nombre) rid
    | none => acc
  else acc

/-- Creator-cancel refund loop over all participants. -/
def creatorRefundPhase (db : DB) (rid : ℤ) (participants : List Participant) : DB :=
  participants.foldl (creatorRefundStep rid) db

/-- Creator branch of `cancel`: refund everyone paid-and-debited, mark the
reservation `isCancel = 1, etat = 3`, delete all its participants, and
re-enable the slot when capacity now permits. -/
def creatorCancelBranch (db : DB) (rid : ℤ) (reservation : Reservation)
    (plage : Option Plage) (participants : List Participant) : DB :=
  let db1 := creatorRefundPhase db rid participants
  let rs2 := mapWhere (fun r => r.id = rid)
    (fun r => { r with isCancel := 1, etat := 3 }) db1.reservations
  let db2 := { db1 with reservations := rs2 }
  let ps3 := filterMatching (fun p => ¬ p.idReservation = rid) db2.participants
  let db3 := { db2 with participants := ps3 }
  match plage with
  | none => db3
  | some plage =>
    if hasAvailableCapacity db3 plage.id reservation.date = true then
      let qs := mapWhere (fun q => q.id = plage.id)
        (fun q => { q with disponible := true }) db3.plages
      { db3 with plages := qs }
    else db3

/-- Participant-leave branch of `cancel`: refund only the canceller when
paid and debited, delete their participant row, and if a VALID match drops
below four players revert it to PENDING and re-enable the slot. -/
def participantLeaveBranch (db : DB) (rid : ℤ) (cancellingUserId : ℤ)
    (reservation : Reservation) (plage : Option Plage)
    (participants : List Participant) : Except String DB :=
  match findFirst (fun p => p.idUtilisateur = cancellingUserId) participants with
  | none => Except.error "USER_NOT_PARTICIPANT"
  | some cancellerParticipant =>
    let db1 :=
      if cancellerParticipant.statepaiement = 1 then
        match findDebitFor db.txns rid cancellingUserId with
        | some userDebit =>
          refundUserCancel db cancellingUserId (abs userDebit.nombre) rid
        | none => db
      else db
    let ps2 := filterMatching (fun p => ¬ (p.idReservation = rid ∧
      p.idUtilisateur = cancellingUserId)) db1.participants
    let db2 := { db1 with participants := ps2 }
    let remainingParticipants :=
      countMatching (fun p => p.idReservation = rid) db2.participants
    if reservation.etat = 1 ∧ (remainingParticipants : ℤ) < 4 then
      let rs3 := mapWhere (fun r => r.id = rid)
        (fun r => { r with etat := 0 }) db2.reservations
      let db3 := { db2 with reservations := rs3 }
      match plage with
      | none => Except.ok db3
      | some plage =>
        let qs := mapWhere (fun q => q.id = plage.id)
          (fun q => { q with disponible := true }) db3.plages
        Except.ok { db3 with plages := qs }
    else Except.ok db2

/-- The slot row behind a reservation (`reservation.id_plage_horaire`,
then `findByPk`). -/
def reservationPlage (db : DB) (reservation : Reservation) : Option Plage :=
  reservation.idPlageHoraire.bind (fun pid => findFirst (fun p => p.id = pid) db.plages)

/-- All participant rows of a reservation. -/
def reservationParticipants (db : DB) (id : ℤ) : List Participant :=
  filterMatching (fun p => p.idReservation = id) db.participants

/-- Does the creator participant exist and match the cancelling user? -/
def isCreatorCanceller (parts : List Participant) (uid : ℤ) : Bool :=
  match findFirst (fun p => p.estCreateur = true) parts with
  | some cp => decide (cp.idUtilisateur = uid)
  | none => false

/-- After a successful branch: return the state and the re-fetched row. -/
def afterCancel (db4 : DB) (id : ℤ) : Except String (DB × Option Reservation) :=
  Except.ok (db4, findFirst (fun r => r.id = id) db4.reservations)

/-- The branch dispatch of `cancel` after the no-op and 24-hour guards:
resolve the slot and the participants, test whether the canceller is the
creator participant, and run the corresponding branch. -/
def cancelBranches (db : DB) (id cancellingUserId : ℤ)
    (reservation : Reservation) : Except String (DB × Option Reservation) :=
  if isCreatorCanceller (reservationParticipants db id) cancellingUserId then
    afterCancel (creatorCancelBranch db id reservation
      (reservationPlage db reservation) (reservationParticipants db id)) id
  else
    match participantLeaveBranch db id cancellingUserId reservation
        (reservationPlage db reservation) (reservationParticipants db id) with
    | Except.error e => Except.error e
    | Except.ok db4 => afterCancel db4 id

/-- Note: `cancel(id, cancellingUserId)`: no-op on an already-cancelled
reservation, then the 24-hour window, then the creator or participant
branch. -/
def cancel (db : DB) (id cancellingUserId now : ℤ) :
    Except String (DB × Option Reservation) :=
  match findFirst (fun r => r.id = id) db.reservations with
  | none => Except.error "RESERVATION_NOT_FOUND"
  | some reservation =>
    if reservation.isCancel = 1 then Except.ok (db, some reservation)
    else if tooLateToCancel reservation.date now then
      Except.error "TOO_LATE_TO_CANCEL"
    else cancelBranches db id cancellingUserId reservation

/- ════════════════════════════════════════════════════════════════════════
   Excess-pending cancellation — `cancelExcessPendingReservations`
   ════════════════════════════════════════════════════════════════════════ -/

/-- Ids of all slot rows sharing `(terrain_id, start_time, end_time)` with
`plage` (the slot itself included). -/
def siblingSlotIds (db : DB) (plage : Plage) : List ℤ :=
  (filterMatching (fun p => p.terrainId = plage.terrainId ∧
    p.startTime = plage.startTime ∧ p.endTime = plage.endTime) db.plages).map (·.id)

/-- The `usersToRefund` set of a cancelled reservation: the creator, then
every participant, first insertion wins (JS `Set` insertion order). -/
def usersToRefundList (creator : ℤ) (ps : List Participant) : List ℤ :=
  ps.foldl (fun acc p => if p.idUtilisateur ∈ acc then acc else acc ++ [p.idUtilisateur])
    [creator]

/-- Cancel one pending reservation inside the excess loop: mark it
cancelled (`etat = -1`), refund `reservation.prix_total` (idempotently) to
every user of the reservation that has a recorded debit, then delete its
participants. -/
def excessRefundStep (resv : Reservation) (acc : DB) (userId : ℤ) : DB :=
  match findDebitFor acc.txns resv.id userId with
  | some _ => (refundUserIdempotent acc userId resv.prixTotal resv.id
      (if userId = resv.idUtilisateur then none else some userId)).2
  | none => acc

/-- Cancel one pending reservation inside the excess loop (continued): body
of the loop over `pendingReservations`. -/
def cancelOnePending (db : DB) (resv : Reservation) : DB :=
  let rs1 := mapWhere (fun r => r.id = resv.id)
    (fun r => { r with isCancel := 1, etat := -1 }) db.reservations
  let db1 := { db with reservations := rs1 }
  let participants := filterMatching (fun p => p.idReservation = resv.id) db1.participants
  let usersToRefund := usersToRefundList resv.idUtilisateur participants
  let db2 := usersToRefund.foldl (excessRefundStep resv) db1
  let ps3 := filterMatching (fun p => ¬ p.idReservation = resv.id) db2.participants
  { db2 with participants := ps3 }

/-- Note: `cancelExcessPendingReservations(plageHoraireId, date, t)`: when the
VALID reservations on the sibling group reach the group's slot count,
cancel every pending reservation of the group (refund `prix_total`, drop
participants). -/
def cancelExcessPendingReservations (db : DB) (plageHoraireId : ℤ)
    (date : Option ℤ) : DB :=
  match findFirst (fun p => p.id = plageHoraireId) db.plages with
  | none => db
  | some plage =>
    let sibIds := siblingSlotIds db plage
    let totalCapacity := sibIds.length
    let validReservations := countMatching (fun r =>
      r.idPlageHoraire ∈ sibIds.map some ∧ r.date = date ∧
      r.isCancel = 0 ∧ r.etat = 1) db.reservations
    if totalCapacity ≤ validReservations then
      let pendingReservations := filterMatching (fun r =>
        r.idPlageHoraire ∈ sibIds.map some ∧ r.date = date ∧
        r.isCancel = 0 ∧ r.etat = 0) db.reservations
      pendingReservations.foldl cancelOnePending db
    else db

/- ════════════════════════════════════════════════════════════════════════
   Refund-effect lemmas for the cancellation paths
   ════════════════════════════════════════════════════════════════════════ -/

theorem findFirst_append {α : Type} (p : α → Prop) [DecidablePred p]
    (l₁ l₂ : List α) :
    findFirst p (l₁ ++ l₂) =
      match findFirst p l₁ with
      | some x => some x
      | none => findFirst p l₂ := by
  induction l₁ with
  | nil => simp [findFirst]
  | cons x xs ih => by_cases hx : p x <;> simp [findFirst, hx, ih]

theorem findFirst_append_none {α : Type} (p : α → Prop) [DecidablePred p]
    (l₁ l₂ : List α) (h : ∀ x ∈ l₂, ¬ p x) :
    findFirst p (l₁ ++ l₂) = findFirst p l₁ := by
  rw [findFirst_append]
  rcases hf : findFirst p l₁ with _ | x
  · simp [(findFirst_eq_none_iff p l₂).mpr h]
  · rfl

theorem findUser_setBalance (users : List User) (v u : ℤ) (b : ℚ) :
    findUser (setBalance users v b) u =
      if u = v then
        (findUser users u).map (fun x => { x with creditBalance := b })
      else findUser users u := by
  induction users with
  | nil =>
    simp only [setBalance, mapWhere, findUser, findFirst, Option.map_none']
    split_ifs <;> rfl
  | cons x xs ih =>
    simp only [setBalance, mapWhere, findUser, findFirst] at *
    by_cases huv : u = v <;> by_cases hxv : x.id = v <;>
      by_cases hxu : x.id = u <;> simp_all

theorem findDebitFor_append_nonDebit (txns rows : List CreditTxn) (rid uid : ℤ)
    (h : ∀ t ∈ rows, matchesDebitPattern rid uid t.type = false) :
    findDebitFor (txns ++ rows) rid uid = findDebitFor txns rid uid := by
  unfold findDebitFor
  apply findFirst_append_none
  rintro t ht ⟨-, hm, -⟩
  rw [h t ht] at hm
  exact Bool.false_ne_true hm

/-- Effect of `cancel`'s inner `refundUser` on any user lookup. -/
theorem refundUserCancel_users (db : DB) (u : ℤ) (a : ℚ) (rid w : ℤ) :
    findUser (refundUserCancel db u a rid).users w =
      if w = u ∧ 0 < a then
        (findUser db.users w).map
          (fun x => { x with creditBalance := x.creditBalance + a })
      else findUser db.users w := by
  unfold refundUserCancel
  by_cases ha : a ≤ 0
  · rw [if_pos ha]
    have : ¬ (w = u ∧ 0 < a) := fun hc => absurd hc.2 (not_lt.mpr ha)
    rw [if_neg this]
  · rw [if_neg ha]
    rcases hu : findUser db.users u with _ | usr
    · by_cases hwu : w = u
      · subst hwu
        simp [hu, not_lt.mp (fun h => ha (le_of_lt h)), lt_of_not_le ha]
      · simp [hwu]
    · show findUser (setBalance db.users u (usr.creditBalance + a)) w = _
      rw [findUser_setBalance]
      by_cases hwu : w = u
      · subst hwu
        rw [if_pos rfl, if_pos ⟨rfl, lt_of_not_le ha⟩, hu]
        rfl
      · rw [if_neg hwu, if_neg (fun hc => hwu hc.1)]

/-- Note: `refundUser` appends at most one `refund:cancel` transaction. -/
theorem refundUserCancel_txns (db : DB) (u : ℤ) (a : ℚ) (rid : ℤ) :
    (refundUserCancel db u a rid).txns = db.txns ∨
    (refundUserCancel db u a rid).txns =
      db.txns ++ [⟨u, a, TxnKey.refundCancel rid⟩] := by
  unfold refundUserCancel
  by_cases ha : a ≤ 0
  · rw [if_pos ha]; exact Or.inl rfl
  · rw [if_neg ha]
    rcases hu : findUser db.users u with _ | usr
    · exact Or.inl rfl
    · exact Or.inr rfl

/-- Debit lookups are stable under `refundUser`. -/
theorem findDebitFor_refundUserCancel (db : DB) (u : ℤ) (a : ℚ)
    (rid rid2 uid : ℤ) :
    findDebitFor (refundUserCancel db u a rid).txns rid2 uid =
      findDebitFor db.txns rid2 uid := by
  rcases refundUserCancel_txns db u a rid with h | h <;> rw [h]
  rw [findDebitFor_append_nonDebit]
  rintro t ht
  simp only [List.mem_singleton] at ht
  subst ht
  rfl

/-- Effect of `creatorRefundStep` on users it does not target. -/
theorem creatorRefundStep_users_other (rid : ℤ) (db : DB) (q : Participant)
    (w : ℤ) (hw : w ≠ q.idUtilisateur) :
    findUser (creatorRefundStep rid db q).users w = findUser db.users w := by
  unfold creatorRefundStep
  split_ifs with h1
  · rcases hd : findDebitFor db.txns rid q.idUtilisateur with _ | d
    · simp [hd]
    · simp only [hd]
      rw [refundUserCancel_users]
      rw [if_neg (fun hc => hw hc.1)]
  · rfl

/-- Debit lookups are stable under `creatorRefundStep`. -/
theorem creatorRefundStep_debit (rid : ℤ) (db : DB) (q : Participant)
    (rid2 uid : ℤ) :
    findDebitFor (creatorRefundStep rid db q).txns rid2 uid =
      findDebitFor db.txns rid2 uid := by
  unfold creatorRefundStep
  split_ifs with h1
  · rcases hd : findDebitFor db.txns rid q.idUtilisateur with _ | d
    · simp [hd]
    · simp only [hd]
      exact findDebitFor_refundUserCancel db q.idUtilisateur (|d.nombre|) rid rid2 uid
  · rfl

/-- Effect of `creatorRefundStep` on the targeted participant's user. -/
theorem creatorRefundStep_users_self (rid : ℤ) (db : DB) (q : Participant) :
    findUser (creatorRefundStep rid db q).users q.idUtilisateur =
      if q.statepaiement = 1 then
        match findDebitFor db.txns rid q.idUtilisateur with
        | some d => (findUser db.users q.idUtilisateur).map
            (fun x => { x with creditBalance := x.creditBalance + |d.nombre| })
        | none => findUser db.users q.idUtilisateur
      else findUser db.users q.idUtilisateur := by
  unfold creatorRefundStep
  split_ifs with h1
  · rcases hd : findDebitFor db.txns rid q.idUtilisateur with _ | d
    · simp [hd]
    · simp only [hd]
      have hneg : d.nombre < 0 := by
        unfold findDebitFor at hd
        exact (findFirst_eq_some hd).2.2.2
      rw [refundUserCancel_users]
      rw [if_pos ⟨rfl, abs_pos.mpr (ne_of_lt hneg)⟩]
  · rfl

/-- Balance bookkeeping of the whole creator refund loop: under distinct
participant users, each participant's user is credited exactly the absolute
debited amount when PAID and debited, and untouched otherwise; users not in
the participant list are untouched. -/
theorem creatorRefundPhase_users (rid : ℤ) (parts : List Participant) (db : DB)
    (hnodup : (parts.map (·.idUtilisateur)).Nodup) :
    (∀ p ∈ parts,
      findUser (creatorRefundPhase db rid parts).users p.idUtilisateur =
        if p.statepaiement = 1 then
          match findDebitFor db.txns rid p.idUtilisateur with
          | some d => (findUser db.users p.idUtilisateur).map
              (fun x => { x with creditBalance := x.creditBalance + |d.nombre| })
          | none => findUser db.users p.idUtilisateur
        else findUser db.users p.idUtilisateur) ∧
    (∀ w : ℤ, w ∉ parts.map (·.idUtilisateur) →
      findUser (creatorRefundPhase db rid parts).users w = findUser db.users w) := by
  induction parts generalizing db with
  | nil => exact ⟨fun p hp => absurd hp (List.not_mem_nil p), fun w _ => rfl⟩
  | cons q qs ih =>
    have hnds : (qs.map (·.idUtilisateur)).Nodup := (List.nodup_cons.mp hnodup).2
    have hqnot : q.idUtilisateur ∉ qs.map (·.idUtilisateur) :=
      (List.nodup_cons.mp hnodup).1
    have hfold : creatorRefundPhase db rid (q :: qs) =
        creatorRefundPhase (creatorRefundStep rid db q) rid qs := rfl
    constructor
    · intro p hp
      rcases List.mem_cons.mp hp with heq | hpqs
      · subst heq
        rw [hfold, (ih (creatorRefundStep rid db p) hnds).2 p.idUtilisateur hqnot]
        exact creatorRefundStep_users_self rid db p
      · have hpq : p.idUtilisateur ≠ q.idUtilisateur := by
          intro he
          exact hqnot (he ▸ List.mem_map_of_mem _ hpqs)
        rw [hfold, (ih _ hnds).1 p hpqs, creatorRefundStep_debit,
          creatorRefundStep_users_other rid db q _ hpq]
    · intro w hw
      have hw2 : w ∉ qs.map (·.idUtilisateur) := fun h =>
        hw (List.mem_cons_of_mem _ h)
      have hwq : w ≠ q.idUtilisateur := fun he =>
        hw (by rw [List.map_cons, he]; exact List.mem_cons_self _ _)
      rw [hfold, (ih _ hnds).2 w hw2,
        creatorRefundStep_users_other rid db q w hwq]

/-- Note: `usersToRefundList` never lists a user twice. -/
theorem insertUniqueFold_nodup (ps : List Participant) (acc : List ℤ)
    (h : acc.Nodup) :
    (ps.foldl (fun acc p =>
      if p.idUtilisateur ∈ acc then acc else acc ++ [p.idUtilisateur]) acc).Nodup := by
  induction ps generalizing acc with
  | nil => exact h
  | cons p ps ih =>
    simp only [List.foldl_cons]
    by_cases hm : p.idUtilisateur ∈ acc
    · rw [if_pos hm]
      exact ih acc h
    · rw [if_neg hm]
      refine ih _ (List.Nodup.append h (List.nodup_singleton _) ?_)
      intro x hx hx2
      simp only [List.mem_singleton] at hx2
      subst hx2
      exact hm hx

theorem usersToRefundList_nodup (creator : ℤ) (ps : List Participant) :
    (usersToRefundList creator ps).Nodup :=
  insertUniqueFold_nodup ps [creator] (List.nodup_singleton _)

/-- Note: `refundUserIdempotent` appends at most one refund transaction. -/
theorem refundUserIdempotent_txns (db : DB) (u : ℤ) (a : ℚ) (rid : ℤ)
    (pid : Option ℤ) :
    ((refundUserIdempotent db u a rid pid).2).txns = db.txns ∨
    ((refundUserIdempotent db u a rid pid).2).txns =
      db.txns ++ [⟨u, a, TxnKey.refundPart rid u pid⟩] := by
  unfold refundUserIdempotent
  by_cases ha : a ≤ 0
  · rw [if_pos ha]
    exact Or.inl rfl
  · rw [if_neg ha]
    rcases hf : findFirst (fun txn => txn.idUtilisateur = u ∧
        txn.type = TxnKey.refundPart rid u pid) db.txns with _ | t
    · rcases hu : findUser db.users u with _ | usr
      · exact Or.inl (by simp [hf, hu])
      · exact Or.inr (by simp [hf, hu, logCreditTransaction])
    · exact Or.inl (by simp [hf])

/-- Transaction searches whose predicate rejects the appended refund row are
stable under `refundUserIdempotent`. -/
theorem refundUserIdempotent_txnStable (db : DB) (u : ℤ) (a : ℚ) (rid : ℤ)
    (pid : Option ℤ) (p : CreditTxn → Prop) [DecidablePred p]
    (hnp : ¬ p ⟨u, a, TxnKey.refundPart rid u pid⟩) :
    findFirst p ((refundUserIdempotent db u a rid pid).2).txns =
      findFirst p db.txns := by
  rcases refundUserIdempotent_txns db u a rid pid with h | h <;> rw [h]
  refine findFirst_append_none p _ _ ?_
  intro t ht
  simp only [List.mem_singleton] at ht
  subst ht
  exact hnp

/-- Debit lookups are stable under `refundUserIdempotent`. -/
theorem findDebitFor_refundIdem (db : DB) (u : ℤ) (a : ℚ) (rid : ℤ)
    (pid : Option ℤ) (rid2 uid : ℤ) :
    findDebitFor ((refundUserIdempotent db u a rid pid).2).txns rid2 uid =
      findDebitFor db.txns rid2 uid := by
  unfold findDebitFor
  refine refundUserIdempotent_txnStable db u a rid pid _ ?_
  rintro ⟨-, hm, -⟩
  simp [matchesDebitPattern] at hm

/-- Effect of `refundUserIdempotent` on other users. -/
theorem refundUserIdempotent_users_other (db : DB) (u : ℤ) (a : ℚ) (rid : ℤ)
    (pid : Option ℤ) (w : ℤ) (hw : w ≠ u) :
    findUser ((refundUserIdempotent db u a rid pid).2).users w =
      findUser db.users w := by
  unfold refundUserIdempotent
  by_cases ha : a ≤ 0
  · rw [if_pos ha]
  · rw [if_neg ha]
    rcases hf : findFirst (fun txn => txn.idUtilisateur = u ∧
        txn.type = TxnKey.refundPart rid u pid) db.txns with _ | t
    · simp only [hf]
      rcases hu : findUser db.users u with _ | usr
      · simp only [hu]
      · simp only [hu]
        show findUser (setBalance db.users u (usr.creditBalance + a)) w = _
        rw [findUser_setBalance, if_neg hw]
    · simp only [hf]

/-- Effect of a successful `refundUserIdempotent` on the refunded user. -/
theorem refundUserIdempotent_users_self (db : DB) (u : ℤ) (a : ℚ) (rid : ℤ)
    (pid : Option ℤ) (ha : 0 < a)
    (hf : findFirst (fun txn => txn.idUtilisateur = u ∧
      txn.type = TxnKey.refundPart rid u pid) db.txns = none) :
    findUser ((refundUserIdempotent db u a rid pid).2).users u =
      (findUser db.users u).map
        (fun x => { x with creditBalance := x.creditBalance + a }) := by
  unfold refundUserIdempotent
  rw [if_neg (not_le.mpr ha)]
  simp only [hf]
  rcases hu : findUser db.users u with _ | usr
  · simp only [hu, Option.map_none']
  · simp only [hu]
    show findUser (setBalance db.users u (usr.creditBalance + a)) u = _
    rw [findUser_setBalance, if_pos rfl, hu]
    rfl

/-- Effect of one excess-refund step on other users. -/
theorem excessRefundStep_users_other (resv : Reservation) (db : DB)
    (uId w : ℤ) (hw : w ≠ uId) :
    findUser (excessRefundStep resv db uId).users w = findUser db.users w := by
  unfold excessRefundStep
  rcases hd : findDebitFor db.txns resv.id uId with _ | d
  · simp [hd]
  · simp only [hd]
    exact refundUserIdempotent_users_other db uId resv.prixTotal resv.id _ w hw

/-- Debit lookups are stable under one excess-refund step. -/
theorem excessRefundStep_debitStable (resv : Reservation) (db : DB)
    (uId rid2 uid : ℤ) :
    findDebitFor (excessRefundStep resv db uId).txns rid2 uid =
      findDebitFor db.txns rid2 uid := by
  unfold excessRefundStep
  rcases hd : findDebitFor db.txns resv.id uId with _ | d
  · simp [hd]
  · simp only [hd]
    exact findDebitFor_refundIdem db uId resv.prixTotal resv.id _ rid2 uid

/-- Duplicate-refund searches of other users are stable under one
excess-refund step. -/
theorem excessRefundStep_dupStable (resv : Reservation) (db : DB)
    (uId u : ℤ) (hu : u ≠ uId) (rid2 : ℤ) (pid : Option ℤ) :
    findFirst (fun t => t.idUtilisateur = u ∧
        t.type = TxnKey.refundPart rid2 u pid)
      (excessRefundStep resv db uId).txns =
    findFirst (fun t => t.idUtilisateur = u ∧
        t.type = TxnKey.refundPart rid2 u pid) db.txns := by
  unfold excessRefundStep
  rcases hd : findDebitFor db.txns resv.id uId with _ | d
  · simp [hd]
  · simp only [hd]
    refine refundUserIdempotent_txnStable db uId resv.prixTotal resv.id _ _ ?_
    rintro ⟨h1, -⟩
    exact hu h1.symm

/-- Effect of one excess-refund step on its own user: credited the
reservation's `prix_total` exactly when a debit is recorded, the amount is
positive and no duplicate refund exists. -/
theorem excessRefundStep_users_self (resv : Reservation) (db : DB) (uId : ℤ) :
    findUser (excessRefundStep resv db uId).users uId =
      match findDebitFor db.txns resv.id uId with
      | some _ =>
        if 0 < resv.prixTotal ∧
            findFirst (fun t => t.idUtilisateur = uId ∧
              t.type = TxnKey.refundPart resv.id uId
                (if uId = resv.idUtilisateur then none else some uId))
              db.txns = none then
          (findUser db.users uId).map
            (fun x => { x with creditBalance := x.creditBalance + resv.prixTotal })
        else findUser db.users uId
      | none => findUser db.users uId := by
  unfold excessRefundStep
  rcases hd : findDebitFor db.txns resv.id uId with _ | d
  · simp [hd]
  · simp only [hd]
    by_cases hcond : 0 < resv.prixTotal ∧
        findFirst (fun t => t.idUtilisateur = uId ∧
          t.type = TxnKey.refundPart resv.id uId
            (if uId = resv.idUtilisateur then none else some uId))
          db.txns = none
    · rw [if_pos hcond]
      exact refundUserIdempotent_users_self db uId resv.prixTotal resv.id _
        hcond.1 hcond.2
    · rw [if_neg hcond]
      unfold refundUserIdempotent
      by_cases ha : resv.prixTotal ≤ 0
      · rw [if_pos ha]
      · rw [if_neg ha]
        rcases hf2 : findFirst (fun t => t.idUtilisateur = uId ∧
            t.type = TxnKey.refundPart resv.id uId
              (if uId = resv.idUtilisateur then none else some uId))
            db.txns with _ | t
        · exact absurd ⟨lt_of_not_le ha, hf2⟩ hcond
        · simp only [hf2]

/-- Balance bookkeeping of the excess-refund loop over a duplicate-free
user list. -/
theorem excessRefundFold_users (resv : Reservation) (users : List ℤ)
    (db : DB) (hnodup : users.Nodup) :
    (∀ u ∈ users,
      findUser (users.foldl (excessRefundStep resv) db).users u =
        match findDebitFor db.txns resv.id u with
        | some _ =>
          if 0 < resv.prixTotal ∧
              findFirst (fun t => t.idUtilisateur = u ∧
                t.type = TxnKey.refundPart resv.id u
                  (if u = resv.idUtilisateur then none else some u))
                db.txns = none then
            (findUser db.users u).map
              (fun x => { x with creditBalance := x.creditBalance + resv.prixTotal })
          else findUser db.users u
        | none => findUser db.users u) ∧
    (∀ w, w ∉ users →
      findUser (users.foldl (excessRefundStep resv) db).users w =
        findUser db.users w) := by
  induction users generalizing db with
  | nil => exact ⟨fun u hu => absurd hu (List.not_mem_nil u), fun w _ => rfl⟩
  | cons v vs ih =>
    have hnds : vs.Nodup := (List.nodup_cons.mp hnodup).2
    have hvnot : v ∉ vs := (List.nodup_cons.mp hnodup).1
    have hfold : (v :: vs).foldl (excessRefundStep resv) db =
        vs.foldl (excessRefundStep resv) (excessRefundStep resv db v) := rfl
    constructor
    · intro u hu
      rcases List.mem_cons.mp hu with heq | huvs
      · subst heq
        rw [hfold, (ih (excessRefundStep resv db u) hnds).2 u hvnot]
        exact excessRefundStep_users_self resv db u
      · have huv : u ≠ v := fun he => hvnot (he ▸ huvs)
        rw [hfold, (ih _ hnds).1 u huvs, excessRefundStep_debitStable,
          excessRefundStep_dupStable resv db v u huv,
          excessRefundStep_users_other resv db v u huv]
    · intro w hw
      have hw2 : w ∉ vs := fun h => hw (List.mem_cons_of_mem _ h)
      have hwv : w ≠ v := fun he => hw (by rw [he]; exact List.mem_cons_self _ _)
      rw [hfold, (ih _ hnds).2 w hw2,
        excessRefundStep_users_other resv db v w hwv]

/-- Note: `creatorCancelBranch` touches users only through the refund phase. -/
theorem creatorCancelBranch_users (db : DB) (rid : ℤ) (r : Reservation)
    (plg : Option Plage) (parts : List Participant) :
    (creatorCancelBranch db rid r plg parts).users =
      (creatorRefundPhase db rid parts).users := by
  unfold creatorCancelBranch
  rcases plg with _ | q
  · rfl
  · simp only []
    split_ifs <;> rfl

/-- Balance bookkeeping of `cancelOnePending` for every user in its refund
set: the refunded amount is the reservation's `prix_total`. -/
theorem cancelOnePending_users (dbx : DB) (resv : Reservation) (u : ℤ)
    (hmem : u ∈ usersToRefundList resv.idUtilisateur
      (filterMatching (fun p => p.idReservation = resv.id) dbx.participants)) :
    findUser (cancelOnePending dbx resv).users u =
      match findDebitFor dbx.txns resv.id u with
      | some _ =>
        if 0 < resv.prixTotal ∧
            findFirst (fun t => t.idUtilisateur = u ∧
              t.type = TxnKey.refundPart resv.id u
                (if u = resv.idUtilisateur then none else some u))
              dbx.txns = none then
          (findUser dbx.users u).map
            (fun x => { x with creditBalance := x.creditBalance + resv.prixTotal })
        else findUser dbx.users u
      | none => findUser dbx.users u := by
  exact (excessRefundFold_users resv
    (usersToRefundList resv.idUtilisateur
      (filterMatching (fun p => p.idReservation = resv.id) dbx.participants))
    { dbx with reservations := mapWhere (fun r => r.id = resv.id) (fun r => { r with isCancel := 1, etat := -1 }) dbx.reservations }
    (usersToRefundList_nodup _ _)).1 u hmem

/-- C2 (amended): on the creator-cancel path every PAID participant with a
recorded debit is refunded exactly the absolute debited amount and a
participant with no recorded debit is not refunded; on the automatic
excess-pending cancellation path a refunded user receives the
reservation's stored `prix_total` (idempotently), not the debited amount,
and a user with no recorded debit receives nothing. -/
theorem cancellation_refunds (db : DB) (id uid now : ℤ) (r : Reservation)
    (hfind : findFirst (fun x => x.id = id) db.reservations = some r)
    (hnc : ¬ r.isCancel = 1)
    (htl : tooLateToCancel r.date now = false)
    (hcr : isCreatorCanceller (reservationParticipants db id) uid = true)
    (hnodup : ((reservationParticipants db id).map (·.idUtilisateur)).Nodup) :
    (cancel db id uid now =
      afterCancel (creatorCancelBranch db id r (reservationPlage db r)
        (reservationParticipants db id)) id) ∧
    (∀ p ∈ reservationParticipants db id,
      (∀ d : CreditTxn, p.statepaiement = 1 →
        findDebitFor db.txns id p.idUtilisateur = some d →
        findUser (creatorCancelBranch db id r (reservationPlage db r)
            (reservationParticipants db id)).users p.idUtilisateur =
          (findUser db.users p.idUtilisateur).map
            (fun x => { x with creditBalance := x.creditBalance + |d.nombre| })) ∧
      (findDebitFor db.txns id p.idUtilisateur = none →
        findUser (creatorCancelBranch db id r (reservationPlage db r)
            (reservationParticipants db id)).users p.idUtilisateur =
          findUser db.users p.idUtilisateur)) ∧
    (∀ (dbx : DB) (resv : Reservation) (u : ℤ),
      u ∈ usersToRefundList resv.idUtilisateur
        (filterMatching (fun p => p.idReservation = resv.id) dbx.participants) →
      (∀ d : CreditTxn, findDebitFor dbx.txns resv.id u = some d →
        0 < resv.prixTotal →
        findFirst (fun t => t.idUtilisateur = u ∧
          t.type = TxnKey.refundPart resv.id u
            (if u = resv.idUtilisateur then none else some u)) dbx.txns = none →
        findUser (cancelOnePending dbx resv).users u =
          (findUser dbx.users u).map
            (fun x => { x with creditBalance := x.creditBalance + resv.prixTotal })) ∧
      (findDebitFor dbx.txns resv.id u = none →
        findUser (cancelOnePending dbx resv).users u = findUser dbx.users u)) := by
  refine ⟨?_, ?_, ?_⟩
  · unfold cancel cancelBranches
    rw [hfind]
    simp [hnc, htl, hcr]
  · intro p hp
    have hkey := (creatorRefundPhase_users id (reservationParticipants db id)
      db hnodup).1 p hp
    constructor
    · intro d hpay hdeb
      rw [creatorCancelBranch_users, hkey, if_pos hpay, hdeb]
    · intro hdeb
      rw [creatorCancelBranch_users, hkey, hdeb]
      split_ifs <;> rfl
  · intro dbx resv u hmem
    constructor
    · intro d hdeb hpos hnodup2
      rw [cancelOnePending_users dbx resv u hmem, hdeb]
      rw [if_pos ⟨hpos, hnodup2⟩]
    · intro hdeb
      rw [cancelOnePending_users dbx resv u hmem, hdeb]

/-- A live PRIVATE reservation (id 20, creator 5, `prix_total` 300, no
slot, no start time). -/
def resCreatorCancel : Reservation :=
  ⟨20, 5, none, none, 1, 1, 0, 300, 0, none, none, none, none, none, none,
   none, none, none, none⟩

/-- Concrete state for the C2 witness: creator 5 is the sole participant,
PAID, with a recorded creator debit of 300. -/
def dbCreatorCancel : DB :=
  ⟨[⟨5, 0⟩], [], [resCreatorCancel], [⟨20, 5, true, 1, some 0⟩],
   [⟨5, -300, TxnKey.debitCreator 20 5⟩]⟩

/-- C2 witness: the creator-cancel path credits user 5 with exactly the
absolute value of the recorded debit. -/
theorem cancellation_refunds_witness :
    findUser (creatorCancelBranch dbCreatorCancel 20 resCreatorCancel
        (reservationPlage dbCreatorCancel resCreatorCancel)
        (reservationParticipants dbCreatorCancel 20)).users 5 =
      (findUser dbCreatorCancel.users 5).map
        (fun x => { x with creditBalance :=
          x.creditBalance + |(-300 : ℚ)| }) :=
  (((cancellation_refunds dbCreatorCancel 20 5 0 resCreatorCancel rfl
      (by decide) rfl rfl (by decide)).2.1
    ⟨20, 5, true, 1, some 0⟩ (by decide)).1
    ⟨5, -300, TxnKey.debitCreator 20 5⟩ rfl (by decide))

/- ════════════════════════════════════════════════════════════════════════
   C9 — cancel on an already-cancelled reservation
   ════════════════════════════════════════════════════════════════════════ -/

/-- C9: calling `cancel` on a reservation whose `is_cancel` flag is already
1 returns the reservation immediately with the state untouched: no refund,
no participant deletion, no field modification. -/
theorem cancel_already_cancelled_noop (db : DB) (id uid now : ℤ) (r : Reservation)
    (hfind : findFirst (fun x => x.id = id) db.reservations = some r)
    (hc : r.isCancel = 1) :
    cancel db id uid now = Except.ok (db, some r) := by
  unfold cancel
  rw [hfind]
  simp [hc]

/-- An already-cancelled reservation row (`is_cancel = 1`, `etat = -1`). -/
def resCancelled : Reservation :=
  ⟨1, 5, none, none, 1, -1, 1, 0, 0, none, none, none, none, none, none, none,
   none, none, none⟩

/-- Concrete state for the C9 witness. -/
def dbCancelled : DB := ⟨[], [], [resCancelled], [], []⟩

/-- C9 witness: concrete already-cancelled reservation, `cancel` returns it
with the state unchanged. -/
theorem cancel_already_cancelled_witness :
    cancel dbCancelled 1 5 0 = Except.ok (dbCancelled, some resCancelled) :=
  cancel_already_cancelled_noop dbCancelled 1 5 0 resCancelled
    (by simp [dbCancelled, resCancelled, findFirst]) rfl

/- ════════════════════════════════════════════════════════════════════════
   C5 — the 24-hour cancellation window
   ════════════════════════════════════════════════════════════════════════ -/

/-- A live reservation whose match starts 24.5 hours (88 200 000 ms) after
time 0. -/
def resLate : Reservation :=
  ⟨1, 5, none, some 88200000, 1, 1, 0, 0, 0, none, none, none, none, none,
   none, none, none, none, none⟩

/-- Concrete state for the C5 counterexample. -/
def dbLate : DB := ⟨[], [], [resLate], [], []⟩

/-- C5 counterexample: cancelling 24.5 hours before the match start — which
is strictly more than 24 hours before it — is rejected with
TOO_LATE_TO_CANCEL, because the code rejects whenever
`Math.floor(hoursUntilMatch) ≤ 24`, i.e. strictly inside 25 hours. -/
theorem cancel_rejected_beyond_24h :
    cancel dbLate 1 5 0 = Except.error "TOO_LATE_TO_CANCEL" ∧
    (24 * 3600000 : ℤ) < 88200000 - 0 := by
  constructor
  · unfold cancel
    have hfind : findFirst (fun x => x.id = 1) dbLate.reservations = some resLate := by
      simp [dbLate, resLate, findFirst]
    rw [hfind]
    norm_num [resLate, tooLateToCancel]
  · norm_num

/-- Note: `participantLeaveBranch` can fail only with USER_NOT_PARTICIPANT. -/
theorem participantLeaveBranch_error_eq (db : DB) (rid uid : ℤ) (r : Reservation)
    (plage : Option Plage) (parts : List Participant) (e : String)
    (h : participantLeaveBranch db rid uid r plage parts = Except.error e) :
    e = "USER_NOT_PARTICIPANT" := by
  unfold participantLeaveBranch at h
  rcases hcp : findFirst (fun p => p.idUtilisateur = uid) parts with _ | cp <;>
    rw [hcp] at h
  · injection h with h
    exact h.symm
  · simp only [] at h
    rcases plage with _ | q <;> split_ifs at h

/-- Note: `cancelBranches` never fails with TOO_LATE_TO_CANCEL. -/
theorem cancelBranches_ne_tooLate (db : DB) (id uid : ℤ) (r : Reservation) :
    cancelBranches db id uid r ≠ Except.error "TOO_LATE_TO_CANCEL" := by
  unfold cancelBranches
  intro h
  split_ifs at h
  · simp [afterCancel] at h
  · rcases hplb : participantLeaveBranch db id uid r
        (reservationPlage db r) (reservationParticipants db id) with e | db4 <;>
      rw [hplb] at h
    · simp only [Except.error.injEq] at h
      have he := participantLeaveBranch_error_eq _ _ _ _ _ _ _ hplb
      rw [h] at he
      exact absurd he (by decide)
    · simp [afterCancel] at h

/-- C5 (amended): for a live reservation with a match start time, `cancel`
is rejected with TOO_LATE_TO_CANCEL exactly when `now` is strictly before
the start and strictly less than 25 hours remain (the code floors the hour
count and rejects when the floor is at most 24); in particular a
cancellation exactly 25 hours early, or at/after the start, is never
rejected for lateness. -/
theorem cancel_tooLate_iff (db : DB) (id uid now start : ℤ) (r : Reservation)
    (hfind : findFirst (fun x => x.id = id) db.reservations = some r)
    (hnc : ¬ r.isCancel = 1) (hdate : r.date = some start) :
    cancel db id uid now = Except.error "TOO_LATE_TO_CANCEL" ↔
      (now < start ∧ start - now < 25 * 3600000) := by
  have htl : tooLateToCancel r.date now = true ↔
      (now < start ∧ start - now < 25 * 3600000) := by
    rw [hdate]
    unfold tooLateToCancel
    simp only [Bool.and_eq_true, decide_eq_true_eq]
    constructor
    · rintro ⟨h1, h2⟩; exact ⟨h1, by omega⟩
    · rintro ⟨h1, h2⟩; exact ⟨h1, by omega⟩
  unfold cancel
  rw [hfind]
  by_cases htlb : tooLateToCancel r.date now = true
  · have hconj := htl.mp htlb
    refine ⟨fun _ => hconj, fun _ => ?_⟩
    simp [hnc, htlb]
  · constructor
    · intro h
      simp only [hnc, ite_false, if_false, htlb] at h
      exact absurd h (cancelBranches_ne_tooLate db id uid r)
    · intro h
      exact absurd (htl.mpr h) htlb

/-- C5 witness: on the concrete 24.5-hours-early state the iff instantiates —
and indeed both sides hold. -/
theorem cancel_tooLate_iff_witness :
    (cancel dbLate 1 5 0 = Except.error "TOO_LATE_TO_CANCEL" ↔
      ((0 : ℤ) < 88200000 ∧ (88200000 : ℤ) - 0 < 25 * 3600000)) ∧
    ((0 : ℤ) < 88200000 ∧ (88200000 : ℤ) - 0 < 25 * 3600000) :=
  ⟨cancel_tooLate_iff dbLate 1 5 0 88200000 resLate
      (by simp [dbLate, resLate, findFirst]) (by norm_num [resLate]) rfl,
    by norm_num⟩

/- ════════════════════════════════════════════════════════════════════════
   C2 counterexample — the excess-pending path refunds prix_total
   ════════════════════════════════════════════════════════════════════════ -/

/-- A pending reservation (id 10, creator 5) with stored `prix_total` 1000. -/
def resPendingExcess : Reservation :=
  ⟨10, 5, some 1, some 0, 1, 0, 0, 1000, 0, none, none, none, none, none,
   none, none, none, none, none⟩

/-- A valid reservation occupying the single sibling slot. -/
def resValidExcess : Reservation :=
  ⟨2, 9, some 1, some 0, 1, 1, 0, 1000, 0, none, none, none, none, none,
   none, none, none, none, none⟩

/-- Concrete state for the C2 counterexample: user 5 paid a discounted
debit of 700 for reservation 10, whose stored `prix_total` is 1000. -/
def dbExcess : DB :=
  ⟨[⟨5, 0⟩], [⟨1, 7, 100, 200, some 1000, none, true⟩],
   [resValidExcess, resPendingExcess], [],
   [⟨5, -700, TxnKey.debitCreator 10 5⟩]⟩

/-- C2 counterexample: on the automatic excess-pending cancellation path,
user 5 — whose recorded debit is 700 — is refunded the reservation's
`prix_total` of 1000, not the absolute debited amount. -/
theorem excess_cancel_refunds_prix_total :
    findUser (cancelExcessPendingReservations dbExcess 1 (some 0)).users 5 =
      some ⟨5, 1000⟩ ∧
    abs ((-700 : ℚ)) = 700 ∧ (1000 : ℚ) ≠ 700 := by
  refine ⟨?_, by norm_num, by norm_num⟩
  norm_num [cancelExcessPendingReservations, dbExcess, resValidExcess,
    resPendingExcess, siblingSlotIds, filterMatching, findFirst, countMatching,
    cancelOnePending, mapWhere, usersToRefundList, excessRefundStep,
    findDebitFor, matchesDebitPattern, refundUserIdempotent, findUser,
    setBalance, logCreditTransaction]

/- ════════════════════════════════════════════════════════════════════════
   Score protocol — `validateSet`, `determineWinner`, `updateScore`
   ════════════════════════════════════════════════════════════════════════ -/

/-- One submitted set score. -/
structure ScoreSet where
  a : ℤ
  b : ℤ

/-- The submitted score payload: two mandatory sets, an optional third, and
the `set3_mode === 'SUPER_TIE_BREAK'` flag. -/
structure ScoreData where
  set1 : ScoreSet
  set2 : ScoreSet
  set3 : Option ScoreSet
  set3SuperTieBreak : Bool

/-- Note: `validateSet(setIndex, a, b, isSuperTieBreak)`: errors on negative
scores; a super tie-break (only as set 3) needs `max ≥ 10` and a margin of
2; a normal set needs `max = 6` with margin ≥ 2, or `max = 7` with
`min ∈ {5, 6}`; everything else is invalid. -/
def validateSet (setIndex : ℕ) (a b : ℤ) (isSuperTieBreak : Bool) :
    Except String Bool :=
  if a < 0 ∨ b < 0 then Except.error "INVALID_SET_VALUES"
  else
    let diff := |a - b|
    let mx := max a b
    let mn := min a b
    if setIndex = 2 ∧ isSuperTieBreak = true then
      if mx < 10 then Except.ok false
      else if diff < 2 then Except.ok false
      else Except.ok true
    else if mx > 7 then Except.ok false
    else if mx = 6 then Except.ok (decide (2 ≤ diff))
    else if mx = 7 then Except.ok (decide (mn = 5 ∨ mn = 6))
    else Except.ok false

/-- Note: `determineWinner(sets)` walk: count set wins, return team 1 or 2 as
soon as one reaches two wins, else `null`. -/
def determineWinnerAux : List ScoreSet → ℤ → ℤ → Option ℤ
  | [], _, _ => none
  | s :: rest, winsA, winsB =>
    let winsA1 := if s.a > s.b then winsA + 1 else winsA
    let winsB1 := if s.b > s.a then winsB + 1 else winsB
    if winsA1 = 2 then some 1
    else if winsB1 = 2 then some 2
    else determineWinnerAux rest winsA1 winsB1

/-- Note: `determineWinner(sets)`. -/
def determineWinner (sets : List ScoreSet) : Option ℤ :=
  determineWinnerAux sets 0 0

/-- The `sets.length < 3 || (Set3A === set3.a && Set3B === set3.b)` clause
of the score comparison. -/
def set3Matches (reservation : Reservation) (set3Used : Option ScoreSet) : Prop :=
  match set3Used with
  | none => True
  | some s3 => reservation.set3A = some s3.a ∧ reservation.set3B = some s3.b

instance (r : Reservation) (s : Option ScoreSet) : Decidable (set3Matches r s) :=
  match s with
  | none => Decidable.isTrue trivial
  | some _ => inferInstanceAs (Decidable (_ ∧ _))

/-- Step 3 of `updateScore`: the new `score_status` — compare with the
stored submission when the current status is PENDING and the submitter
differs (CONFIRMED on a field-by-field match, CONFLICT otherwise), else
stay PENDING. -/
def scoreTransition (reservation : Reservation) (sd : ScoreData)
    (submitterId : ℤ) (set3Used : Option ScoreSet) (tempWinner : ℤ) : ℤ :=
  if reservation.scoreStatus = some 0 ∧
      ¬ reservation.lastScoreSubmitter = some submitterId then
    if reservation.set1A = some sd.set1.a ∧ reservation.set1B = some sd.set1.b ∧
        reservation.set2A = some sd.set2.a ∧ reservation.set2B = some sd.set2.b ∧
        set3Matches reservation set3Used ∧
        reservation.teamwin = some tempWinner then 1 else 3
  else 0

/-- Step 4 of `updateScore`: the row update persisting every score field. -/
def persistScore (sd : ScoreData) (submitterId : ℤ) (set3Used : Option ScoreSet)
    (tempWinner newStatus : ℤ) (r : Reservation) : Reservation :=
  { r with
    set1A := some sd.set1.a, set1B := some sd.set1.b,
    set2A := some sd.set2.a, set2B := some sd.set2.b,
    set3A := set3Used.map (·.a), set3B := set3Used.map (·.b),
    supertiebreak := some (if sd.set3SuperTieBreak then 1 else 0),
    scoreStatus := some newStatus,
    teamwin := some tempWinner,
    lastScoreSubmitter := some submitterId }

/-- Steps 3–4 of `updateScore` once the sets are validated and a winner is
known. -/
def finishUpdateScore (db : DB) (reservation : Reservation) (sd : ScoreData)
    (submitterId : ℤ) (set3Used : Option ScoreSet) (tempWinner : ℤ) :
    Except String DB :=
  Except.ok { db with reservations := mapWhere (fun r => r.id = reservation.id) (persistScore sd submitterId set3Used tempWinner (scoreTransition reservation sd submitterId set3Used tempWinner)) db.reservations }

/-- Note: `updateScore(reservationId, scoreData, submitterId)`: lock check,
set validation, winner derivation (set 3 only on a 1–1 split), status
comparison, persistence.  The asynchronous rating task and the
notifications fired after commit are not modelled. -/
def updateScore (db : DB) (reservationId : ℤ) (sd : ScoreData)
    (submitterId : ℤ) : Except String DB :=
  match findFirst (fun r => r.id = reservationId) db.reservations with
  | none => Except.error "RESERVATION_NOT_FOUND"
  | some reservation =>
    if reservation.scoreStatus = some 1 ∨ reservation.scoreStatus = some 2 then
      Except.error "SCORE_LOCKED"
    else
      match validateSet 0 sd.set1.a sd.set1.b false with
      | Except.error e => Except.error e
      | Except.ok false => Except.error "INVALID_SET_1"
      | Except.ok true =>
        match validateSet 1 sd.set2.a sd.set2.b false with
        | Except.error e => Except.error e
        | Except.ok false => Except.error "INVALID_SET_2"
        | Except.ok true =>
          match determineWinner [sd.set1, sd.set2] with
          | some w => finishUpdateScore db reservation sd submitterId none w
          | none =>
            match sd.set3 with
            | none => Except.error "SET_3_REQUIRED"
            | some s3 =>
              match validateSet 2 s3.a s3.b sd.set3SuperTieBreak with
              | Except.error e => Except.error e
              | Except.ok false => Except.error "INVALID_SET_3"
              | Except.ok true =>
                match determineWinner [sd.set1, sd.set2, s3] with
                | none => Except.error "MATCH_UNDECIDED"
                | some w => finishUpdateScore db reservation sd submitterId (some s3) w

/-- The stored-vs-persisted reformulation of the third-set comparison. -/
theorem set3Matches_iff (r : Reservation) (s3u : Option ScoreSet) :
    set3Matches r s3u ↔
      (s3u.map (·.a) = none ∨
        (r.set3A = s3u.map (·.a) ∧ r.set3B = s3u.map (·.b))) := by
  cases s3u <;> simp [set3Matches]

/-- Submission of the identical sets `6-4, 6-4` (team A wins 2–0). -/
def sd64 : ScoreData := ⟨⟨6, 4⟩, ⟨6, 4⟩, none, false⟩

/-- A reservation with no score submitted yet (all score columns NULL; the
reservation schema is not under the service, its fresh rows carry no
`score_status`). -/
def resFresh : Reservation :=
  ⟨1, 5, none, none, 1, 1, 0, 0, 0, none, none, none, none, none, none, none,
   none, none, none⟩

/-- The reservation row after participant 7 submits `6-4, 6-4`. -/
def rowAfterFirst : Reservation :=
  { resFresh with
    set1A := some 6, set1B := some 4, set2A := some 6, set2B := some 4,
    set3A := none, set3B := none, supertiebreak := some 0,
    scoreStatus := some 0, teamwin := some 1, lastScoreSubmitter := some 7 }

/-- The row after participant 8 then submits the identical score. -/
def rowAfterSecond : Reservation :=
  { rowAfterFirst with scoreStatus := some 1, lastScoreSubmitter := some 8 }

/-- State holding only the fresh reservation. -/
def dbScoreFresh : DB := ⟨[], [], [resFresh], [], []⟩

/-- State after the first submission. -/
def dbAfterFirst : DB := ⟨[], [], [rowAfterFirst], [], []⟩

/-- State after the second submission. -/
def dbAfterSecond : DB := ⟨[], [], [rowAfterSecond], [], []⟩

/-- C4: on a successful `updateScore`, when the stored status is PENDING
(0) and the stored last submitter differs from the current one, the new
status is CONFIRMED (1) exactly when the stored sets, third set and winner
all equal the submitted ones, and CONFLICT (3) otherwise; in every other
non-locked case the new status is PENDING (0).  And concretely: two
distinct participants submitting the identical `6-4, 6-4` drive a fresh
reservation first to PENDING, then to CONFIRMED with `teamwin = 1`. -/
theorem updateScore_status_transitions (db : DB) (rid sub : ℤ) (sd : ScoreData)
    (db' : DB) (r r' : Reservation)
    (hfind : findFirst (fun x => x.id = rid) db.reservations = some r)
    (hok : updateScore db rid sd sub = Except.ok db')
    (hfind' : findFirst (fun x => x.id = rid) db'.reservations = some r') :
    (((r.scoreStatus = some 0 ∧ ¬ r.lastScoreSubmitter = some sub) →
      (r'.scoreStatus = some 1 ∨ r'.scoreStatus = some 3) ∧
      (r'.scoreStatus = some 1 ↔
        (r.set1A = some sd.set1.a ∧ r.set1B = some sd.set1.b ∧
         r.set2A = some sd.set2.a ∧ r.set2B = some sd.set2.b ∧
         (r'.set3A = none ∨ (r.set3A = r'.set3A ∧ r.set3B = r'.set3B)) ∧
         r.teamwin = r'.teamwin))) ∧
     (¬ (r.scoreStatus = some 0 ∧ ¬ r.lastScoreSubmitter = some sub) →
      r'.scoreStatus = some 0)) ∧
    (updateScore dbScoreFresh 1 sd64 7 = Except.ok dbAfterFirst ∧
     rowAfterFirst.scoreStatus = some 0 ∧
     updateScore dbAfterFirst 1 sd64 8 = Except.ok dbAfterSecond ∧
     rowAfterSecond.scoreStatus = some 1 ∧ rowAfterSecond.teamwin = some 1) := by
  refine ⟨?_, rfl, rfl, rfl, rfl, rfl⟩
  obtain ⟨hmem, hrid⟩ := findFirst_eq_some hfind
  subst hrid
  unfold updateScore at hok
  rw [hfind] at hok
  simp only [] at hok
  by_cases hlock : (r.scoreStatus = some 1 ∨ r.scoreStatus = some 2)
  · rw [if_pos hlock] at hok
    exact absurd hok (by simp)
  · rw [if_neg hlock] at hok
    have key : ∀ (s3u : Option ScoreSet) (w : ℤ),
        finishUpdateScore db r sd sub s3u w = Except.ok db' →
        ((r.scoreStatus = some 0 ∧ ¬ r.lastScoreSubmitter = some sub) →
          (r'.scoreStatus = some 1 ∨ r'.scoreStatus = some 3) ∧
          (r'.scoreStatus = some 1 ↔
            (r.set1A = some sd.set1.a ∧ r.set1B = some sd.set1.b ∧
             r.set2A = some sd.set2.a ∧ r.set2B = some sd.set2.b ∧
             (r'.set3A = none ∨ (r.set3A = r'.set3A ∧ r.set3B = r'.set3B)) ∧
             r.teamwin = r'.teamwin))) ∧
        (¬ (r.scoreStatus = some 0 ∧ ¬ r.lastScoreSubmitter = some sub) →
          r'.scoreStatus = some 0) := by
      intro s3u w hfin
      unfold finishUpdateScore at hfin
      have hres : mapWhere (fun x => x.id = r.id)
          (persistScore sd sub s3u w (scoreTransition r sd sub s3u w))
          db.reservations = db'.reservations :=
        congrArg DB.reservations (Except.ok.inj hfin)
      have hmap : findFirst (fun x => x.id = r.id) db'.reservations =
          some (persistScore sd sub s3u w (scoreTransition r sd sub s3u w) r) := by
        rw [← hres]
        rw [findFirst_mapWhere (fun x : Reservation => x.id = r.id)
          (persistScore sd sub s3u w (scoreTransition r sd sub s3u w))
          db.reservations (fun x => Iff.rfl), hfind]
        rfl
      have hr' : r' = persistScore sd sub s3u w (scoreTransition r sd sub s3u w) r :=
        Option.some.inj (hfind'.symm.trans hmap)
      subst hr'
      constructor
      · intro hpend
        have hs : (persistScore sd sub s3u w (scoreTransition r sd sub s3u w) r).scoreStatus =
            some (scoreTransition r sd sub s3u w) := rfl
        rw [hs]
        unfold scoreTransition
        rw [if_pos hpend]
        by_cases hsame : (r.set1A = some sd.set1.a ∧ r.set1B = some sd.set1.b ∧
            r.set2A = some sd.set2.a ∧ r.set2B = some sd.set2.b ∧
            set3Matches r s3u ∧ r.teamwin = some w)
        · rw [if_pos hsame]
          obtain ⟨h1, h2, h3, h4, h5, h6⟩ := hsame
          exact ⟨Or.inl rfl,
            iff_of_true rfl ⟨h1, h2, h3, h4, (set3Matches_iff r s3u).mp h5, h6⟩⟩
        · rw [if_neg hsame]
          refine ⟨Or.inr rfl, iff_of_false (by simp) ?_⟩
          intro hfields
          exact hsame ⟨hfields.1, hfields.2.1, hfields.2.2.1, hfields.2.2.2.1,
            (set3Matches_iff r s3u).mpr hfields.2.2.2.2.1, hfields.2.2.2.2.2⟩
      · intro hnp
        have hs : (persistScore sd sub s3u w (scoreTransition r sd sub s3u w) r).scoreStatus =
            some (scoreTransition r sd sub s3u w) := rfl
        rw [hs]
        unfold scoreTransition
        rw [if_neg hnp]
    split at hok
    · simp at hok
    · simp at hok
    · split at hok
      · simp at hok
      · simp at hok
      · split at hok
        · exact key none _ hok
        · split at hok
          · simp at hok
          · split at hok
            · simp at hok
            · simp at hok
            · split at hok
              · simp at hok
              · exact key (some _) _ hok

/-- C4 witness: the transition theorem instantiated at the concrete second
submission — the status lands in the CONFIRMED/CONFLICT pair. -/
theorem updateScore_status_transitions_witness :
    rowAfterSecond.scoreStatus = some 1 ∨ rowAfterSecond.scoreStatus = some 3 :=
  (((updateScore_status_transitions dbAfterFirst 1 8 sd64 dbAfterSecond
      rowAfterFirst rowAfterSecond rfl rfl rfl).1.1)
    ⟨rfl, by decide⟩).1

/- ════════════════════════════════════════════════════════════════════════
   Generic `update(id, data)` and the background finalizer
   ════════════════════════════════════════════════════════════════════════ -/

/-- The fields a caller may pass to the generic `update`; `none` means the
field is absent from `data`. -/
structure UpdateData where
  etat : Option ℤ
  scoreStatus : Option ℤ
  isCancel : Option ℤ
  teamwin : Option ℤ

/-- Merge one supplied nullable field over the stored one. -/
def mergeField (newVal old : Option ℤ) : Option ℤ :=
  match newVal with
  | some v => some v
  | none => old

/-- Note: `reservation.update(data)`: overwrite exactly the supplied fields. -/
def applyUpdate (r : Reservation) (d : UpdateData) : Reservation :=
  { r with
    etat := d.etat.getD r.etat,
    scoreStatus := mergeField d.scoreStatus r.scoreStatus,
    isCancel := d.isCancel.getD r.isCancel,
    teamwin := mergeField d.teamwin r.teamwin }

/-- Generic `update(id, data)` of the reservation service: find the row and
overwrite whatever fields `data` carries.  (Its slot-availability hint
branch compares `data.etat` with the string `'valid'`, which a numeric
state never equals; it touches only the `disponible` hint and is not
modelled.) -/
def update (db : DB) (id : ℤ) (d : UpdateData) : Except String DB :=
  match findFirst (fun r => r.id = id) db.reservations with
  | none => Except.error "RESERVATION_NOT_FOUND"
  | some _ =>
    let rs := mapWhere (fun r => r.id = id) (fun r => applyUpdate r d) db.reservations
    Except.ok { db with reservations := rs }

/-- Loop body of `finalizePendingScores`: a reservation with
`score_status = 0` whose `updatedAt` is older than 24 hours becomes
AUTO_CONFIRMED (2); every other row is untouched. -/
def finalizeStep (now : ℤ) (r : Reservation) : Reservation :=
  if r.scoreStatus = some 0 ∧ r.updatedAt < now - 86400000 then
    { r with scoreStatus := some 2 }
  else r

/-- Note: `finalizePendingScores()`: apply `finalizeStep` to every reservation
(the asynchronous rating task per row is not modelled). -/
def finalizePendingScores (db : DB) (now : ℤ) : DB :=
  { db with reservations := db.reservations.map (finalizeStep now) }

/-- A CONFIRMED reservation with a stored `6-4, 6-4` score. -/
def resConfirmed : Reservation :=
  ⟨1, 5, none, none, 1, 1, 0, 0, 0, some 1, some 6, some 4, some 6, some 4,
   none, none, some 0, some 1, some 7⟩

/-- Concrete state for the C6 counterexample. -/
def dbConfirmed : DB := ⟨[], [], [resConfirmed], [], []⟩

/-- Note: `resConfirmed` after a generic `update` overwrote its score status. -/
def resOverwritten : Reservation := { resConfirmed with scoreStatus := some 0 }

/-- C6 counterexample: the generic `update` operation of the service writes
whatever fields it is given, so it can move a CONFIRMED (1) reservation
back to PENDING (0) — the universal "no operation of the service ever
changes its score state again" fails. -/
theorem update_overwrites_confirmed_score :
    resConfirmed.scoreStatus = some 1 ∧
    update dbConfirmed 1 ⟨none, some 0, none, none⟩ =
      Except.ok ⟨[], [], [resOverwritten], [], []⟩ ∧
    resOverwritten.scoreStatus = some 0 :=
  ⟨rfl, rfl, rfl⟩

/-- C6 (amended): once `score_status` is CONFIRMED (1) or AUTO_CONFIRMED
(2), `updateScore` fails with SCORE_LOCKED and the background finalizer
leaves the row unchanged — it transitions only rows whose status is
PENDING (0); the generic `update`, however, can still overwrite the score
fields it is handed. -/
theorem locked_score_not_retransitioned (db : DB) (rid sub now : ℤ)
    (sd : ScoreData) (r : Reservation)
    (hfind : findFirst (fun x => x.id = rid) db.reservations = some r)
    (hlocked : r.scoreStatus = some 1 ∨ r.scoreStatus = some 2) :
    updateScore db rid sd sub = Except.error "SCORE_LOCKED" ∧
    finalizeStep now r = r ∧
    (∀ x : Reservation, ¬ finalizeStep now x = x → x.scoreStatus = some 0) := by
  refine ⟨?_, ?_, ?_⟩
  · unfold updateScore
    rw [hfind]
    simp only []
    rw [if_pos hlocked]
  · unfold finalizeStep
    have hns : ¬ (r.scoreStatus = some 0 ∧ r.updatedAt < now - 86400000) := by
      rintro ⟨h0, -⟩
      rcases hlocked with h | h <;> rw [h] at h0 <;> exact absurd h0 (by decide)
    rw [if_neg hns]
  · intro x hx
    by_cases hc : (x.scoreStatus = some 0 ∧ x.updatedAt < now - 86400000)
    · exact hc.1
    · unfold finalizeStep at hx
      rw [if_neg hc] at hx
      exact absurd rfl hx

/-- C6 witness: on the concrete CONFIRMED reservation, `updateScore` is
rejected as locked. -/
theorem locked_score_witness :
    updateScore dbConfirmed 1 sd64 9 = Except.error "SCORE_LOCKED" :=
  (locked_score_not_retransitioned dbConfirmed 1 9 0 sd64 resConfirmed rfl
    (Or.inl rfl)).1

/- ════════════════════════════════════════════════════════════════════════
   Creation pricing — STEP 5 and STEP 7 of `create`
   ════════════════════════════════════════════════════════════════════════ -/

/-- STEP 5 of `create`: `Number.isFinite(price) && price > 0 ? price : 1`
(`none` models a missing or non-finite slot price). -/
def normalizedPrice (price : Option ℚ) : ℚ :=
  match price with
  | some p => if p > 0 then p else 1
  | none => 1

/-- STEP 7 of `create`: the creator's own charge — discounted price clamped
at zero when deduction applies, zero when skipped or free. -/
def creatorCharge (normPrice membershipDiscount : ℚ)
    (shouldSkipDeduction isFree : Bool) : ℚ :=
  if shouldSkipDeduction = false ∧ isFree = false then
    let finalPrice := normPrice - membershipDiscount
    if finalPrice < 0 then 0 else finalPrice
  else 0

/-- STEP 7 continued: pay-for-all adds three undiscounted unit prices. -/
def totalChargeToDeduct (normPrice membershipDiscount : ℚ)
    (shouldSkipDeduction isFree isPayForAll : Bool) : ℚ :=
  if isPayForAll = true ∧ shouldSkipDeduction = false then
    creatorCharge normPrice membershipDiscount shouldSkipDeduction isFree +
      3 * normPrice
  else creatorCharge normPrice membershipDiscount shouldSkipDeduction isFree

/-- The amount actually debited from the creator: the total charge when
deduction is not skipped and the charge is positive, else nothing. -/
def creatorDebitAmount (normPrice membershipDiscount : ℚ)
    (shouldSkipDeduction isFree isPayForAll : Bool) : ℚ :=
  if shouldSkipDeduction = false ∧
      0 < totalChargeToDeduct normPrice membershipDiscount
        shouldSkipDeduction isFree isPayForAll then
    totalChargeToDeduct normPrice membershipDiscount
      shouldSkipDeduction isFree isPayForAll
  else 0

/-- C10 counterexample: a listed price of 1/2 is finite and positive, so it
is not normalized; a creator paying by credit with no membership benefit is
debited exactly 1/2 — strictly positive but below 1. -/
theorem fractional_price_debit_below_one :
    creatorDebitAmount (normalizedPrice (some (1/2))) 0 false false false = 1/2 ∧
    (0 : ℚ) < 1/2 ∧ ¬ (1 : ℚ) ≤ 1/2 := by
  norm_num [creatorDebitAmount, totalChargeToDeduct, creatorCharge,
    normalizedPrice]

/-- C10 (amended): a missing, non-finite or non-positive slot price is
normalized to 1 before charge computation, so a creator paying by credit
with no membership benefit is debited exactly the normalized price — always
strictly positive (and exactly 1 for a 0 or missing price), though a listed
price strictly between 0 and 1 is debited as-is, below 1. -/
theorem create_normalizes_price_and_debits_it (price : Option ℚ) :
    0 < normalizedPrice price ∧
    creatorDebitAmount (normalizedPrice price) 0 false false false =
      normalizedPrice price ∧
    normalizedPrice none = 1 ∧
    normalizedPrice (some 0) = 1 ∧
    (∀ p : ℚ, p ≤ 0 → normalizedPrice (some p) = 1) := by
  have hpos : 0 < normalizedPrice price := by
    rcases price with _ | p
    · norm_num [normalizedPrice]
    · simp only [normalizedPrice]
      split_ifs with h
      · exact h
      · norm_num
  refine ⟨hpos, ?_, rfl, by norm_num [normalizedPrice], ?_⟩
  · have h3 : ¬ normalizedPrice price < 0 := not_lt.mpr hpos.le
    simp [creatorDebitAmount, totalChargeToDeduct, creatorCharge, sub_zero,
      h3, hpos]
  · intro p hp
    simp only [normalizedPrice]
    rw [if_neg (not_lt.mpr hp)]

/-- C10 witness: a negative listed price is normalized to 1. -/
theorem create_normalizes_price_witness : normalizedPrice (some (-3)) = 1 :=
  (create_normalizes_price_and_debits_it (some (-3))).2.2.2.2 (-3) (by norm_num)

end Padel
